import Mathlib

/-!
Verification development for the fn-analyzer benchmarking harness.

Durations are modelled as `Int` (Go `time.Duration` is an `int64` count of
nanoseconds).  the Go language integer division on nonnegative operands agrees with
`Int.tdiv` (truncation toward zero).  the Go language `math.Sqrt` followed by the
truncating conversion `time.Duration(...)` is modelled by `Nat.sqrt` of the
floor of the exact variance: for every nonnegative real `x`,
`⌊Real.sqrt x⌋ = Nat.sqrt ⌊x⌋`, so the two agree except on float-rounding
corner cases that no claim depends on.
-/

/-- One hour in nanoseconds: the initial value `time.Hour` that
`Analyzer.Run` (analyzer.go:92) and `QueryExecutor.ExecuteBatch`
(query.go:83) give to `MinDuration`. -/
def hourNs : Int := 3600000000000

/-- Integer square root by linear scan: the largest `r` with `r * r ≤ n`.
This models the Go language `time.Duration(math.Sqrt(x))` (truncating conversion of a
correctly-rounded square root): for every nonnegative real `x`,
`⌊Real.sqrt x⌋` is the largest integer whose square is at most `⌊x⌋`.
A structurally recursive definition is used so concrete values reduce in the
kernel. -/
def natSqrt (n : Nat) : Nat :=
  (List.range (n + 1)).foldl (fun acc r => if r * r ≤ n then r else acc) 0

/-- Insert into a list sorted ascending. -/
def insertSorted (x : Int) : List Int → List Int
  | [] => [x]
  | y :: ys => if x ≤ y then x :: y :: ys else y :: insertSorted x ys

/-- Ascending sort of a duration list, modelling the
ascending `sort.Slice` calls on duration slices
(sliceutils.go:15, sliceutils.go:59, analyzer.go:169).  On `Int` values any
correct sort produces the same list, so insertion sort is an exact model. -/
def sortDurations (l : List Int) : List Int := l.foldr insertSorted []

/-- `utils.CalculatePercentile` (sliceutils.go:10-26): empty input returns 0;
otherwise sort ascending, take index `floor(len * percentile / 100)` clamped
to the last valid index.  The float64 percentile argument is modelled exactly
as a rational; callers pass nonnegative percentiles. -/
def CalculatePercentile (durations : List Int) (percentile : ℚ) : Int :=
  if durations.isEmpty then 0
  else
    let sorted := sortDurations durations
    let n := durations.length
    let idx := (Int.floor ((n : ℚ) * percentile / 100)).toNat
    let idx := if idx ≥ n then n - 1 else idx
    sorted.getD idx 0

/-- `utils.CalculateStandardDeviation` (sliceutils.go:28-41): returns 0 for
fewer than two samples, else the truncated square root of
`sum((d - mean)^2) / (len - 1)` — note the `len(durations)-1` (Bessel)
denominator at sliceutils.go:39. -/
def CalculateStandardDeviation (durations : List Int) (mean : Int) : Int :=
  if durations.length ≤ 1 then 0
  else
    let sum := durations.foldl (fun acc d => acc + (d - mean) * (d - mean)) 0
    let variance := sum.tdiv ((durations.length : Int) - 1)
    (natSqrt variance.toNat : Int)

/-- Result record of `utils.CalculateStats` (sliceutils.go:43-52).
`Min`/`Max` are rendered `statMin`/`statMax` to avoid clashing with the
`Min`/`Max` order classes. -/
structure Stats where
  statMin : Int
  statMax : Int
  mean : Int
  median : Int
  stdDev : Int
  p95 : Int
  p99 : Int
  samples : Nat
deriving Repr, DecidableEq

/-- `utils.CalculateStats` (sliceutils.go:54-103): zero-value result on empty
input; otherwise sort ascending, mean = total/len (integer division),
variance = `sum((d-mean)^2)/len` (population denominator, sliceutils.go:76),
and percentile indices `int(float64(len) * f)` for f = 0.5, 0.95, 0.99,
clamped to `len-1`.  `int(float64(n)*0.95)` is modelled by `n * 95 / 100`;
the two floors agree (the exact fractional parts are multiples of 1/20 or
1/100, far beyond double rounding error). -/
def CalculateStats (durations : List Int) : Stats :=
  if durations.isEmpty then ⟨0, 0, 0, 0, 0, 0, 0, 0⟩
  else
    let sorted := sortDurations durations
    let n := durations.length
    let total := sorted.foldl (· + ·) 0
    let mean := total.tdiv (n : Int)
    let sumSquares := sorted.foldl (fun acc d => acc + (d - mean) * (d - mean)) 0
    let variance := sumSquares.tdiv (n : Int)
    let stdDev : Int := (natSqrt variance.toNat : Int)
    let p50Idx := min (n * 50 / 100) (n - 1)
    let p95Idx := min (n * 95 / 100) (n - 1)
    let p99Idx := min (n * 99 / 100) (n - 1)
    { statMin := sorted.getD 0 0
      statMax := sorted.getD (n - 1) 0
      mean := mean
      median := sorted.getD p50Idx 0
      stdDev := stdDev
      p95 := sorted.getD p95Idx 0
      p99 := sorted.getD p99Idx 0
      samples := n }

/-- `model.QueryExecution` (model.go:19-26), restricted to the fields the
core reads: duration, row count, outcome (`none` = success, `some msg` =
failure), plus the start time and SQL text carried along. -/
structure QueryExecution where
  sql : String
  startTime : Int
  duration : Int
  rowCount : Int
  error : Option String
deriving Repr, DecidableEq

/-- `model.QueryResult` (model.go:29-51), restricted to the fields the core
writes (description/weight/complexity tags are pass-through data the core
never reads, and are omitted). -/
structure QueryResult where
  name : String
  executions : List QueryExecution
  successfulExecutions : Nat
  errors : Nat
  errorDetails : List String
  totalDuration : Int
  avgDuration : Int
  minDuration : Int
  maxDuration : Int
  medianDuration : Int
  stdDevDuration : Int
  percentile95 : Int
  percentile99 : Int
  rowsAffected : Int
  firstExecutedAt : Int
  lastExecutedAt : Int
deriving Repr, DecidableEq

/-- The initial per-query result of `Analyzer.Run` (analyzer.go:88-96) and
`QueryExecutor.ExecuteBatch` (query.go:79-87): zeroed counters and
`MinDuration = time.Hour`. -/
def initResult (name : String) : QueryResult :=
  { name := name
    executions := []
    successfulExecutions := 0
    errors := 0
    errorDetails := []
    totalDuration := 0
    avgDuration := 0
    minDuration := hourNs
    maxDuration := 0
    medianDuration := 0
    stdDevDuration := 0
    percentile95 := 0
    percentile99 := 0
    rowsAffected := 0
    firstExecutedAt := 0
    lastExecutedAt := 0 }

/-- The merge of one completed execution into its `QueryResult`.  Both batch
runners perform field-by-field identical updates under their per-result lock:
`Analyzer.Run` at analyzer.go:114-153 and `QueryExecutor.ExecuteBatch` at
query.go:107-135.  First/last timestamps: the first merged execution sets
`FirstExecutedAt`, every merge sets `LastExecutedAt`; on failure the error
counter is bumped and the message appended to the detail list only while that
list holds fewer than 10 entries; on success the success counter, total
duration, row sum and running min/max are updated.  Either way the execution
is appended to the list exactly once. -/
def mergeExecution (r : QueryResult) (e : QueryExecution) : QueryResult :=
  let r := { r with
    firstExecutedAt := if r.executions.isEmpty then e.startTime else r.firstExecutedAt
    lastExecutedAt := e.startTime }
  match e.error with
  | some msg =>
    { r with
      executions := r.executions ++ [e]
      errors := r.errors + 1
      errorDetails :=
        if r.errorDetails.length < 10 then r.errorDetails ++ [msg] else r.errorDetails }
  | none =>
    { r with
      executions := r.executions ++ [e]
      successfulExecutions := r.successfulExecutions + 1
      totalDuration := r.totalDuration + e.duration
      rowsAffected := r.rowsAffected + e.rowCount
      minDuration := if e.duration < r.minDuration then e.duration else r.minDuration
      maxDuration := if e.duration > r.maxDuration then e.duration else r.maxDuration }

/-- One merge step of `Analyzer.Run` (analyzer.go:112-158): besides the shared
merge it appends the duration of a successful execution to the run-local
`durations` slice (analyzer.go:144). -/
def runStep (s : QueryResult × List Int) (e : QueryExecution) : QueryResult × List Int :=
  (mergeExecution s.1 e,
   match e.error with
   | some _ => s.2
   | none => s.2 ++ [e.duration])

/-- Finalization of `Analyzer.Run` (analyzer.go:164-177): average when at
least one success, and the 95th percentile (index `int(float64(len)*0.95)`
clamped) of the sorted successful durations when that list is nonempty.
Median, p99 and standard deviation are not touched by this path. -/
def runFinalize (s : QueryResult × List Int) : QueryResult :=
  let r := s.1
  let r :=
    if 0 < r.successfulExecutions then
      { r with avgDuration := r.totalDuration.tdiv (r.successfulExecutions : Int) }
    else r
  let ds := s.2
  if ds.isEmpty then r
  else
    let sorted := sortDurations ds
    let idx95 := min (ds.length * 95 / 100) (ds.length - 1)
    { r with percentile95 := sorted.getD idx95 0 }

/-- The per-query pipeline of `Analyzer.Run` (analyzer.go:87-188): fold the
completed executions (in completion order) into the initial result and
finalize.  The concurrent goroutines serialize their merges through
`resultMutex`, so a run is a fold over some completion-order permutation of
the executions. -/
def runQuery (execs : List QueryExecution) : QueryResult :=
  runFinalize (execs.foldl runStep (initResult "", []))

/-- Finalization of `QueryExecutor.ExecuteBatch` (query.go:148-165): when at
least one success, average = total/successes, and median/p95/p99/stddev are
taken from `utils.CalculateStats` applied to the durations of the successful
executions (collected from the execution list in order). -/
def batchFinalize (r : QueryResult) : QueryResult :=
  if 0 < r.successfulExecutions then
    let r := { r with avgDuration := r.totalDuration.tdiv (r.successfulExecutions : Int) }
    let durations := (r.executions.filter (fun e => e.error.isNone)).map (fun e => e.duration)
    if durations.isEmpty then r
    else
      let stats := CalculateStats durations
      { r with
        percentile95 := stats.p95
        percentile99 := stats.p99
        stdDevDuration := stats.stdDev
        medianDuration := stats.median }
  else r

/-- The per-query pipeline of `QueryExecutor.ExecuteBatch` (query.go:90-175):
fold the completed executions into the initial result and finalize. -/
def executeBatchQuery (execs : List QueryExecution) : QueryResult :=
  batchFinalize (execs.foldl mergeExecution (initResult ""))

/-- The durations of the successful executions of a list, in order. -/
def succDurations (execs : List QueryExecution) : List Int :=
  (execs.filter (fun e => e.error.isNone)).map (fun e => e.duration)

/-- The error messages of the failing executions of a list, in order. -/
def failMsgs (execs : List QueryExecution) : List String :=
  execs.filterMap (fun e => e.error)

/-- Abstract behaviour of the database for one execution: how long the
`QueryContext` call takes to return, whether it errors, how long draining the
row cursor takes afterwards, the row count, and a possible row-iteration
error. -/
structure DBResponse where
  issueTime : Int
  issueError : Option String
  drainTime : Int
  rowCount : Int
  rowsError : Option String
deriving Repr, DecidableEq

/-- The Execution Unit: `Analyzer.executeQuery` (analyzer.go:200-226) and
`QueryExecutor.ExecuteQuery` (query.go:40-72) both record
`duration = time.Since(start)` immediately after `QueryContext` returns
(analyzer.go:209, query.go:51), before the row-drain loop; an issue-time
error returns with zero rows, otherwise the rows are drained and a
row-iteration error is recorded on the execution. -/
def executeQuery (sql : String) (startTime : Int) (db : DBResponse) : QueryExecution :=
  match db.issueError with
  | some msg =>
    { sql := sql, startTime := startTime, duration := db.issueTime,
      rowCount := 0, error := some msg }
  | none =>
    { sql := sql, startTime := startTime, duration := db.issueTime,
      rowCount := db.rowCount, error := db.rowsError }

/-- The wall-clock time elapsed from dispatch until the row cursor has been
fully drained: the query call itself plus the drain loop. -/
def drainCompletionElapsed (db : DBResponse) : Int :=
  db.issueTime + db.drainTime

/-- `model.ResultSummary` (model.go:66-82), restricted to the fields
`calculateSummary` writes.  The millisecond figures are exact rationals
standing for the float64 values; the complexity-tag tally is omitted (no
claim concerns it). -/
structure ResultSummary where
  totalQueries : Nat
  successfulQueries : Nat
  failedQueries : Nat
  totalExecutions : Nat
  successfulExecutions : Nat
  failedExecutions : Nat
  totalRowsReturned : Int
  avgDurationMs : ℚ
  maxDurationMs : ℚ
deriving Repr, DecidableEq

/-- Sum of the per-query average durations, the `totalDuration` accumulator
of `calculateSummary` (analyzer.go:275). -/
def sumAvgDurations (results : List QueryResult) : Int :=
  results.foldl (fun acc r => acc + r.avgDuration) 0

/-- The running maximum of the per-query `MaxDuration` fields
(analyzer.go:276-278), starting from the zero value. -/
def maxOfMaxDurations (results : List QueryResult) : Int :=
  results.foldl (fun acc r => if r.maxDuration > acc then r.maxDuration else acc) 0

/-- The Run Summarizer: `calculateSummary` (analyzer.go:254-290).  One pass
over all results sums execution/success/failure/row counts, classifies each
query by `Errors == 0`, accumulates `totalDuration += result.AvgDuration`
for every result, and tracks the maximum `MaxDuration`.  When there is at
least one query, the overall average is `totalDuration / TotalQueries`
(duration division, then `Microseconds()` = division by 1000 truncating
toward zero, then float division by 1000). -/
def calculateSummary (results : List QueryResult) : ResultSummary :=
  let totalQueries := results.length
  let totalDuration := sumAvgDurations results
  let maxDuration := maxOfMaxDurations results
  { totalQueries := totalQueries
    successfulQueries := (results.filter (fun r => r.errors = 0)).length
    failedQueries := (results.filter (fun r => ¬ r.errors = 0)).length
    totalExecutions := results.foldl (fun acc r => acc + r.executions.length) 0
    successfulExecutions := results.foldl (fun acc r => acc + r.successfulExecutions) 0
    failedExecutions := results.foldl (fun acc r => acc + r.errors) 0
    totalRowsReturned := results.foldl (fun acc r => acc + r.rowsAffected) 0
    avgDurationMs :=
      if 0 < totalQueries then
        (((totalDuration.tdiv (totalQueries : Int)).tdiv 1000 : Int) : ℚ) / 1000
      else 0
    maxDurationMs :=
      if 0 < totalQueries then ((maxDuration.tdiv 1000 : Int) : ℚ) / 1000 else 0 }

/-- Modelled from the spec: the Run Summarizer the specification describes,
whose overall average is computed from the per-query averages of only the
queries with a defined average (at least one successful execution), excluded
from numerator and denominator alike.  Stated with the same
nanosecond-to-millisecond conversion as the code for comparability. -/
def specOverallAvgMs (results : List QueryResult) : ℚ :=
  let sel := results.filter (fun r => 0 < r.successfulExecutions)
  if 0 < sel.length then
    ((((sumAvgDurations sel).tdiv (sel.length : Int)).tdiv 1000 : Int) : ℚ) / 1000
  else 0

/-- The aggregate-improvement computation of `report.SaveComparisonJSON`
(json.go:157-182): the per-run totals and count are accumulated over the
queries of that same run having `SuccessfulExecutions > 0`; when both counts
are positive, the average of each side is `Microseconds()` of its total divided by
its count and by 1000, and the improvement percentage is
`(beforeAvg - afterAvg) / beforeAvg * 100` guarded by `beforeAvg > 0`. -/
def comparisonAggregate (before after : List QueryResult) : ℚ :=
  let beforeSel := before.filter (fun q => 0 < q.successfulExecutions)
  let afterSel := after.filter (fun q => 0 < q.successfulExecutions)
  let beforeTotal := beforeSel.foldl (fun acc q => acc + q.avgDuration) 0
  let afterTotal := afterSel.foldl (fun acc q => acc + q.avgDuration) 0
  if 0 < beforeSel.length ∧ 0 < afterSel.length then
    let beforeAvg : ℚ := ((beforeTotal.tdiv 1000 : Int) : ℚ) / (beforeSel.length : ℚ) / 1000
    let afterAvg : ℚ := ((afterTotal.tdiv 1000 : Int) : ℚ) / (afterSel.length : ℚ) / 1000
    if 0 < beforeAvg then (beforeAvg - afterAvg) / beforeAvg * 100 else 0
  else 0

/-- Modelled from the spec: the Comparator aggregate the specification
describes, computed from the per-query averages of exactly the queries having
at least one successful execution in both runs (matched by name), with the
same unit conversions as the code. -/
def specComparisonAggregate (before after : List QueryResult) : ℚ :=
  let okInBoth := fun (run other : List QueryResult) =>
    run.filter (fun q => 0 < q.successfulExecutions ∧
      other.any (fun p => p.name = q.name ∧ 0 < p.successfulExecutions))
  let beforeSel := okInBoth before after
  let afterSel := okInBoth after before
  let beforeTotal := beforeSel.foldl (fun acc q => acc + q.avgDuration) 0
  let afterTotal := afterSel.foldl (fun acc q => acc + q.avgDuration) 0
  if 0 < beforeSel.length ∧ 0 < afterSel.length then
    let beforeAvg : ℚ := ((beforeTotal.tdiv 1000 : Int) : ℚ) / (beforeSel.length : ℚ) / 1000
    let afterAvg : ℚ := ((afterTotal.tdiv 1000 : Int) : ℚ) / (afterSel.length : ℚ) / 1000
    if 0 < beforeAvg then (beforeAvg - afterAvg) / beforeAvg * 100 else 0
  else 0

/-- Events observable at the admission gate: an execution starts (acquires a
slot), or finishes successfully, or finishes with an error. -/
inductive GateEvent where
  | start
  | finishOk
  | finishErr
deriving Repr, DecidableEq

/-- The admission-gate semantics shared by both runners: a buffered channel
of capacity `C` used as a counting semaphore (`semaphore <- struct{}{}`
before each execution, `<-semaphore` when it completes: analyzer.go:85,
analyzer.go:106, analyzer.go:110 and query.go:36, query.go:101,
query.go:105).  `ValidTrace C t n` means the event sequence `t` is
realizable and leaves `n` executions in flight: a send on the full channel
blocks, so a start step is only enabled while fewer than `C` are in flight,
and a finishing execution gives its slot back whether it succeeded or
failed (`Analyzer.Run` releases in a `defer`, `ExecuteBatch` releases
immediately after `ExecuteQuery` returns, before inspecting the error). -/
inductive ValidTrace (C : Nat) : List GateEvent → Nat → Prop
  | nil : ValidTrace C [] 0
  | start {t n} : ValidTrace C t n → n < C → ValidTrace C (t ++ [GateEvent.start]) (n + 1)
  | finishOk {t n} : ValidTrace C t (n + 1) → ValidTrace C (t ++ [GateEvent.finishOk]) n
  | finishErr {t n} : ValidTrace C t (n + 1) → ValidTrace C (t ++ [GateEvent.finishErr]) n

/-- A successful execution with the given duration, used as concrete test
data. -/
def succExec (d : Int) : QueryExecution :=
  { sql := "q", startTime := 0, duration := d, rowCount := 0, error := none }

/-- A failing execution with the given message, used as concrete test
data. -/
def failExec (msg : String) : QueryExecution :=
  { sql := "q", startTime := 0, duration := 0, rowCount := 0, error := some msg }

/-- Concrete before-run for exercising the Comparator: query A averaged
100000ns over 1 success, query B averaged 10000ns over 1 success. -/
def cmpBeforeRun : List QueryResult :=
  [{ initResult "A" with successfulExecutions := 1, avgDuration := 100000 },
   { initResult "B" with successfulExecutions := 1, avgDuration := 10000 }]

/-- Concrete after-run for exercising the Comparator: query A averaged
100000ns over 1 success, query B had no successful execution. -/
def cmpAfterRun : List QueryResult :=
  [{ initResult "A" with successfulExecutions := 1, avgDuration := 100000 },
   { initResult "B" with successfulExecutions := 0, avgDuration := 0 }]

/-- Folding the merge step appends each completed execution to the list
exactly once. -/
theorem foldl_merge_executions (execs : List QueryExecution) (r : QueryResult) :
    (execs.foldl mergeExecution r).executions = r.executions ++ execs := by
  induction execs generalizing r with
  | nil => simp
  | cons e es ih =>
    cases he : e.error <;>
      simp [List.foldl_cons, ih, mergeExecution, he]

/-- Folding the merge step adds the number of successful executions to the
success counter. -/
theorem foldl_merge_succ (execs : List QueryExecution) (r : QueryResult) :
    (execs.foldl mergeExecution r).successfulExecutions =
      r.successfulExecutions + (execs.filter (fun e => e.error.isNone)).length := by
  induction execs generalizing r with
  | nil => simp
  | cons e es ih =>
    cases he : e.error <;>
      simp [List.foldl_cons, ih, mergeExecution, he, List.filter_cons] <;> omega

/-- Folding the merge step adds the number of failing executions to the
error counter. -/
theorem foldl_merge_errors (execs : List QueryExecution) (r : QueryResult) :
    (execs.foldl mergeExecution r).errors = r.errors + (failMsgs execs).length := by
  induction execs generalizing r with
  | nil => simp [failMsgs]
  | cons e es ih =>
    cases he : e.error <;>
      simp [List.foldl_cons, ih, mergeExecution, he, failMsgs] <;> omega

/-- Folding the merge step adds the successful durations to the total. -/
theorem foldl_merge_total (execs : List QueryExecution) (r : QueryResult) :
    (execs.foldl mergeExecution r).totalDuration =
      r.totalDuration + (succDurations execs).sum := by
  induction execs generalizing r with
  | nil => simp [succDurations]
  | cons e es ih =>
    cases he : e.error <;>
      simp [List.foldl_cons, ih, mergeExecution, he, succDurations, List.filter_cons] <;>
      ring

/-- Folding the merge step applies the running-minimum update of the source
to each successful duration in turn; failures never touch the minimum. -/
theorem foldl_merge_min (execs : List QueryExecution) (r : QueryResult) :
    (execs.foldl mergeExecution r).minDuration =
      (succDurations execs).foldl (fun acc d => if d < acc then d else acc) r.minDuration := by
  induction execs generalizing r with
  | nil => simp [succDurations]
  | cons e es ih =>
    cases he : e.error <;>
      simp [List.foldl_cons, ih, mergeExecution, he, succDurations, List.filter_cons]

/-- The merge fold never writes the finalization-only fields. -/
theorem foldl_merge_untouched (execs : List QueryExecution) (r : QueryResult) :
    (execs.foldl mergeExecution r).avgDuration = r.avgDuration ∧
    (execs.foldl mergeExecution r).medianDuration = r.medianDuration ∧
    (execs.foldl mergeExecution r).stdDevDuration = r.stdDevDuration ∧
    (execs.foldl mergeExecution r).percentile95 = r.percentile95 ∧
    (execs.foldl mergeExecution r).percentile99 = r.percentile99 := by
  induction execs generalizing r with
  | nil => simp
  | cons e es ih =>
    cases he : e.error <;>
      simpa [List.foldl_cons, mergeExecution, he] using ih _

/-- Folding the merge step appends failure messages to the detail list only
up to the cap of 10: starting from a list within the cap, the result is that
list extended by the first messages that still fit. -/
theorem foldl_merge_errorDetails (execs : List QueryExecution) (r : QueryResult)
    (h : r.errorDetails.length ≤ 10) :
    (execs.foldl mergeExecution r).errorDetails =
      r.errorDetails ++ (failMsgs execs).take (10 - r.errorDetails.length) := by
  induction execs generalizing r with
  | nil => simp [failMsgs]
  | cons e es ih =>
    cases he : e.error with
    | none =>
      have hstep : (mergeExecution r e).errorDetails = r.errorDetails := by
        simp [mergeExecution, he]
      rw [List.foldl_cons, ih (mergeExecution r e) (by rw [hstep]; exact h), hstep,
        show failMsgs (e :: es) = failMsgs es from by simp [failMsgs, he]]
    | some msg =>
      have hmsgs : failMsgs (e :: es) = msg :: failMsgs es := by simp [failMsgs, he]
      by_cases hlen : r.errorDetails.length < 10
      · have hstep : (mergeExecution r e).errorDetails = r.errorDetails ++ [msg] := by
          simp [mergeExecution, he, hlen]
        have hlen2 : (mergeExecution r e).errorDetails.length ≤ 10 := by
          rw [hstep]; simp; omega
        rw [List.foldl_cons, ih (mergeExecution r e) hlen2, hstep, hmsgs]
        have hsplit : 10 - r.errorDetails.length = (10 - (r.errorDetails ++ [msg]).length) + 1 := by
          simp; omega
        rw [hsplit, List.take_succ_cons]
        simp
      · have h10 : r.errorDetails.length = 10 := by omega
        have hstep : (mergeExecution r e).errorDetails = r.errorDetails := by
          simp [mergeExecution, he, hlen]
        rw [List.foldl_cons, ih (mergeExecution r e) (by rw [hstep]; omega), hstep, hmsgs, h10]
        simp

/-- The run-local duration slice of `Analyzer.Run` collects exactly the
successful durations, in completion order, alongside the shared merge. -/
theorem foldl_runStep_spec (execs : List QueryExecution) (r : QueryResult) (ds : List Int) :
    execs.foldl runStep (r, ds) = (execs.foldl mergeExecution r, ds ++ succDurations execs) := by
  induction execs generalizing r ds with
  | nil => simp [succDurations]
  | cons e es ih =>
    cases he : e.error <;>
      simp [List.foldl_cons, ih, runStep, succDurations, List.filter_cons, he]

/-- `Analyzer.Run` finalization only writes `AvgDuration` and
`Percentile95`; every other field passes through. -/
theorem runFinalize_preserved (s : QueryResult × List Int) :
    (runFinalize s).successfulExecutions = s.1.successfulExecutions ∧
    (runFinalize s).errors = s.1.errors ∧
    (runFinalize s).executions = s.1.executions ∧
    (runFinalize s).errorDetails = s.1.errorDetails ∧
    (runFinalize s).minDuration = s.1.minDuration ∧
    (runFinalize s).medianDuration = s.1.medianDuration ∧
    (runFinalize s).stdDevDuration = s.1.stdDevDuration ∧
    (runFinalize s).percentile99 = s.1.percentile99 := by
  simp only [runFinalize]
  split <;> split <;> simp

/-- `Analyzer.Run` finalization leaves `AvgDuration` unchanged when no
execution succeeded. -/
theorem runFinalize_avg_zero (s : QueryResult × List Int)
    (h : s.1.successfulExecutions = 0) :
    (runFinalize s).avgDuration = s.1.avgDuration := by
  simp only [runFinalize, h]
  split <;> simp

/-- `ExecuteBatch` finalization only writes the derived statistics fields;
counts, the execution list, the error details and min/max pass through. -/
theorem batchFinalize_preserved (r : QueryResult) :
    (batchFinalize r).successfulExecutions = r.successfulExecutions ∧
    (batchFinalize r).errors = r.errors ∧
    (batchFinalize r).executions = r.executions ∧
    (batchFinalize r).errorDetails = r.errorDetails ∧
    (batchFinalize r).minDuration = r.minDuration := by
  simp only [batchFinalize]
  split
  · split <;> simp
  · simp

/-- C2 counterexample: a database interaction whose query call returns after
5ns and whose row drain takes 7 more ns yields a recorded duration of 5ns,
not the 12ns elapsed when the rows have been fully drained — the claim that
the recorded duration measures until the row-iteration loop completes is
false of `executeQuery`/`ExecuteQuery`. -/
theorem c2_duration_counterexample :
    (executeQuery "q" 0 ⟨5, none, 7, 3, none⟩).duration = 5 ∧
    drainCompletionElapsed ⟨5, none, 7, 3, none⟩ = 12 ∧
    (executeQuery "q" 0 ⟨5, none, 7, 3, none⟩).duration ≠
      drainCompletionElapsed ⟨5, none, 7, 3, none⟩ := by
  decide

/-- C2 (amended): for every execution performed by the Execution Unit, the
recorded duration measures wall-clock time from dispatch until the query
call returns its first response; the time spent draining the result rows is
not included.  On a database error at issue time the duration likewise
reflects the elapsed time up to that failure. -/
theorem c2_duration_measures_issue_only (s : String) (t : Int) (db : DBResponse) :
    (executeQuery s t db).duration = db.issueTime := by
  cases h : db.issueError <;> simp [executeQuery, h]

/-- C4: the program mixes standard-deviation conventions.  On the sample
list [0ns, 10ns] with mean 5ns the sum of squared deviations is 50:
`CalculateStandardDeviation` divides by N−1 = 1 and returns ⌊√50⌋ = 7ns,
while `CalculateStats` — the only stddev computation actually reached at run
time — divides by N = 2 and returns √25 = 5ns, the value the claim requires
of every stddev computation. -/
theorem c4_stddev_convention_mismatch :
    CalculateStandardDeviation [0, 10] 5 = 7 ∧
    (CalculateStats [0, 10]).stdDev = 5 ∧
    CalculateStandardDeviation [0, 10] 5 ≠ (CalculateStats [0, 10]).stdDev := by
  decide

/-- C5: under the counting admission gate of capacity C shared by both batch
runners, every realizable event sequence keeps the number of in-flight
executions at or below C: a start is enabled only while fewer than C are in
flight, and a completing execution — successful or failed — releases its
slot. -/
theorem c5_in_flight_bounded (C : Nat) (t : List GateEvent) (n : Nat)
    (hC : 0 < C) (h : ValidTrace C t n) : n ≤ C := by
  induction h with
  | nil => omega
  | start _ hlt _ => omega
  | finishOk _ ih => omega
  | finishErr _ ih => omega

/-- C5 witness: with capacity 2, the trace that starts two executions and
finishes one (with an error) is realizable, leaves one in flight, and the
theorem bounds it by 2. -/
theorem c5_in_flight_bounded_witness : 0 < 2 ∧ 1 ≤ 2 :=
  ⟨by decide,
   c5_in_flight_bounded 2 [GateEvent.start, GateEvent.start, GateEvent.finishErr] 1
     (by decide)
     (ValidTrace.finishErr
       (ValidTrace.start (ValidTrace.start ValidTrace.nil (by decide)) (by decide)))⟩

/-- C6: for both batch runners, every completed execution is appended to the
execution list exactly once (the finalized list is the completion-order
input), and the success and error counters partition it:
`successfulExecutions + errors = len(executions)`. -/
theorem filter_fail_length (execs : List QueryExecution) :
    (execs.filter (fun e => e.error.isNone)).length + (failMsgs execs).length
      = execs.length := by
  induction execs with
  | nil => simp [failMsgs]
  | cons e es ih =>
    cases he : e.error with
    | none =>
      simp only [failMsgs, List.filterMap_cons, List.filter_cons, he] at ih ⊢
      simp only [Option.isNone_none, if_pos, List.length_cons]
      omega
    | some m =>
      simp only [failMsgs, List.filterMap_cons, List.filter_cons, he] at ih ⊢
      simp only [Option.isNone_some, Bool.false_eq_true, if_neg, List.length_cons,
        not_false_eq_true]
      omega

theorem c6_counts_partition_executions (execs : List QueryExecution) :
    (runQuery execs).executions = execs ∧
    (runQuery execs).successfulExecutions + (runQuery execs).errors =
      (runQuery execs).executions.length ∧
    (executeBatchQuery execs).executions = execs ∧
    (executeBatchQuery execs).successfulExecutions + (executeBatchQuery execs).errors =
      (executeBatchQuery execs).executions.length := by
  have hrun := runFinalize_preserved (execs.foldl runStep (initResult "", []))
  have hbatch := batchFinalize_preserved (execs.foldl mergeExecution (initResult ""))
  have hsplit := foldl_runStep_spec execs (initResult "") []
  have hexecs : (execs.foldl mergeExecution (initResult "")).executions = execs := by
    simp [foldl_merge_executions, initResult]
  have hsucc : (execs.foldl mergeExecution (initResult "")).successfulExecutions
      = (execs.filter (fun e => e.error.isNone)).length := by
    simp [foldl_merge_succ, initResult]
  have herr : (execs.foldl mergeExecution (initResult "")).errors
      = (failMsgs execs).length := by
    simp [foldl_merge_errors, initResult]
  refine ⟨?_, ?_, ?_, ?_⟩
  · show (runFinalize (execs.foldl runStep (initResult "", []))).executions = execs
    rw [hrun.2.2.1, hsplit]
    exact hexecs
  · show (runFinalize (execs.foldl runStep (initResult "", []))).successfulExecutions
        + (runFinalize (execs.foldl runStep (initResult "", []))).errors
      = (runFinalize (execs.foldl runStep (initResult "", []))).executions.length
    rw [hrun.1, hrun.2.1, hrun.2.2.1, hsplit]
    show (execs.foldl mergeExecution (initResult "")).successfulExecutions
        + (execs.foldl mergeExecution (initResult "")).errors
      = (execs.foldl mergeExecution (initResult "")).executions.length
    rw [hsucc, herr, hexecs]
    exact filter_fail_length execs
  · show (batchFinalize (execs.foldl mergeExecution (initResult ""))).executions = execs
    rw [hbatch.2.2.1]
    exact hexecs
  · show (batchFinalize (execs.foldl mergeExecution (initResult ""))).successfulExecutions
        + (batchFinalize (execs.foldl mergeExecution (initResult ""))).errors
      = (batchFinalize (execs.foldl mergeExecution (initResult ""))).executions.length
    rw [hbatch.1, hbatch.2.1, hbatch.2.2.1, hsucc, herr, hexecs]
    exact filter_fail_length execs

/-- C7 counterexample: two failing executions carrying the same message give
an error-detail list with a duplicate entry — the detail list is not a list
of distinct messages. -/
theorem c7_duplicates_counterexample :
    (runQuery [failExec "boom", failExec "boom"]).errorDetails = ["boom", "boom"] ∧
    ¬ (runQuery [failExec "boom", failExec "boom"]).errorDetails.Nodup := by
  decide

/-- C7 (amended): for every QueryResult of either batch runner, the
error-detail list is exactly the messages of the first at most 10 failing
executions in completion order — duplicates included, no deduplication —
so its length never exceeds 10, while the error counter counts every
failure without bound. -/
theorem c7_error_details_capped_first_ten (execs : List QueryExecution) :
    (runQuery execs).errorDetails = (failMsgs execs).take 10 ∧
    (runQuery execs).errors = (failMsgs execs).length ∧
    (runQuery execs).errorDetails.length ≤ 10 ∧
    (executeBatchQuery execs).errorDetails = (failMsgs execs).take 10 ∧
    (executeBatchQuery execs).errors = (failMsgs execs).length := by
  have hrun := runFinalize_preserved (execs.foldl runStep (initResult "", []))
  have hbatch := batchFinalize_preserved (execs.foldl mergeExecution (initResult ""))
  have hsplit := foldl_runStep_spec execs (initResult "") []
  have hdet : (execs.foldl mergeExecution (initResult "")).errorDetails
      = (failMsgs execs).take 10 := by
    have := foldl_merge_errorDetails execs (initResult "") (by simp [initResult])
    simpa [initResult] using this
  have herr : (execs.foldl mergeExecution (initResult "")).errors
      = (failMsgs execs).length := by
    simp [foldl_merge_errors, initResult]
  refine ⟨?_, ?_, ?_, ?_, ?_⟩
  · show (runFinalize (execs.foldl runStep (initResult "", []))).errorDetails = _
    rw [hrun.2.2.2.1, hsplit]
    exact hdet
  · show (runFinalize (execs.foldl runStep (initResult "", []))).errors = _
    rw [hrun.2.1, hsplit]
    exact herr
  · show (runFinalize (execs.foldl runStep (initResult "", []))).errorDetails.length ≤ 10
    rw [hrun.2.2.2.1, hsplit]
    show (execs.foldl mergeExecution (initResult "")).errorDetails.length ≤ 10
    rw [hdet]
    simp [List.length_take]
  · show (batchFinalize (execs.foldl mergeExecution (initResult ""))).errorDetails = _
    rw [hbatch.2.2.2.1]
    exact hdet
  · show (batchFinalize (execs.foldl mergeExecution (initResult ""))).errors = _
    rw [hbatch.2.1]
    exact herr

/-- C9 counterexample: one successful execution lasting two hours.  The
minimum successful duration is 2h, but the runner reports `MinDuration` =
1h: the sentinel is the finite value `time.Hour`, not "+infinity", and the
reported minimum is wrong for durations at or above one hour. -/
theorem c9_min_sentinel_counterexample :
    (runQuery [succExec (2 * hourNs)]).successfulExecutions = 1 ∧
    (runQuery [succExec (2 * hourNs)]).minDuration = hourNs ∧
    hourNs ≠ 2 * hourNs := by
  decide

/-- C9 (amended): for both batch runners, `MinDuration` is the running
minimum of the successful-execution durations seeded with the one-hour
sentinel `time.Hour` (failures never contribute).  With zero successes it
stays at the sentinel — a nonzero value, never 0 — and it equals the true
minimum of the successful durations exactly when some successful duration
lies below one hour. -/
theorem c9_min_duration_hour_sentinel (execs : List QueryExecution) :
    (runQuery execs).minDuration =
      (succDurations execs).foldl (fun acc d => if d < acc then d else acc) hourNs ∧
    (executeBatchQuery execs).minDuration =
      (succDurations execs).foldl (fun acc d => if d < acc then d else acc) hourNs := by
  have hrun := runFinalize_preserved (execs.foldl runStep (initResult "", []))
  have hbatch := batchFinalize_preserved (execs.foldl mergeExecution (initResult ""))
  have hsplit := foldl_runStep_spec execs (initResult "") []
  have hmin : (execs.foldl mergeExecution (initResult "")).minDuration
      = (succDurations execs).foldl (fun acc d => if d < acc then d else acc) hourNs := by
    have := foldl_merge_min execs (initResult "")
    simpa [initResult] using this
  constructor
  · show (runFinalize (execs.foldl runStep (initResult "", []))).minDuration = _
    rw [hrun.2.2.2.2.1, hsplit]
    exact hmin
  · show (batchFinalize (execs.foldl mergeExecution (initResult ""))).minDuration = _
    rw [hbatch.2.2.2.2]
    exact hmin

/-- C3 counterexample: two successful executions (4ns, 6ns) processed by the
`Analyzer.Run` batch path.  Finalization computes the average and the 95th
percentile, but median, p99 and standard deviation are left at their zero
values despite two successes — the claim that none of the four fields stays
zero after a success is false for this runner. -/
theorem c3_run_leaves_stats_zero_counterexample :
    (runQuery [succExec 4, succExec 6]).successfulExecutions = 2 ∧
    (runQuery [succExec 4, succExec 6]).avgDuration = 5 ∧
    (runQuery [succExec 4, succExec 6]).percentile95 = 6 ∧
    (runQuery [succExec 4, succExec 6]).medianDuration = 0 ∧
    (runQuery [succExec 4, succExec 6]).percentile99 = 0 ∧
    (runQuery [succExec 4, succExec 6]).stdDevDuration = 0 := by
  decide

/-- C3 (amended): when at least one execution succeeded,
`QueryExecutor.ExecuteBatch` finalization computes the average as total
duration over successful count and fills median, p95, p99, and standard
deviation from `CalculateStats` of the successful-duration sequence; the
`Analyzer.Run` path computes only the average and p95 at finalization,
leaving median, p99 and standard deviation at their zero values. -/
theorem c3_batch_finalization_stats (execs : List QueryExecution)
    (h : 0 < (succDurations execs).length) :
    (executeBatchQuery execs).avgDuration =
      (succDurations execs).sum.tdiv ((succDurations execs).length : Int) ∧
    (executeBatchQuery execs).medianDuration = (CalculateStats (succDurations execs)).median ∧
    (executeBatchQuery execs).percentile95 = (CalculateStats (succDurations execs)).p95 ∧
    (executeBatchQuery execs).percentile99 = (CalculateStats (succDurations execs)).p99 ∧
    (executeBatchQuery execs).stdDevDuration = (CalculateStats (succDurations execs)).stdDev ∧
    (runQuery execs).medianDuration = 0 ∧
    (runQuery execs).percentile99 = 0 ∧
    (runQuery execs).stdDevDuration = 0 := by
  have hrun := runFinalize_preserved (execs.foldl runStep (initResult "", []))
  have hsplit := foldl_runStep_spec execs (initResult "") []
  have huntouched := foldl_merge_untouched execs (initResult "")
  have hexecs : (execs.foldl mergeExecution (initResult "")).executions = execs := by
    simp [foldl_merge_executions, initResult]
  have hsucc : (execs.foldl mergeExecution (initResult "")).successfulExecutions
      = (succDurations execs).length := by
    simp [foldl_merge_succ, initResult, succDurations]
  have htot : (execs.foldl mergeExecution (initResult "")).totalDuration
      = (succDurations execs).sum := by
    simp [foldl_merge_total, initResult]
  have hpos : 0 < (execs.foldl mergeExecution (initResult "")).successfulExecutions := by
    rw [hsucc]; exact h
  have hne : ¬ (succDurations execs).isEmpty = true := by
    rw [List.isEmpty_iff]
    intro hnil
    rw [hnil] at h
    simp at h
  have hdurs :
      (({ execs.foldl mergeExecution (initResult "") with
          avgDuration := (execs.foldl mergeExecution (initResult "")).totalDuration.tdiv
            (((execs.foldl mergeExecution (initResult "")).successfulExecutions : Nat) : Int)
        : QueryResult }).executions.filter (fun e => e.error.isNone)).map
        (fun e => e.duration) = succDurations execs := by
    simp [hexecs, succDurations]
  have hbf : executeBatchQuery execs =
      { { execs.foldl mergeExecution (initResult "") with
          avgDuration := (execs.foldl mergeExecution (initResult "")).totalDuration.tdiv
            (((execs.foldl mergeExecution (initResult "")).successfulExecutions : Nat) : Int)
        : QueryResult } with
        percentile95 := (CalculateStats (succDurations execs)).p95
        percentile99 := (CalculateStats (succDurations execs)).p99
        stdDevDuration := (CalculateStats (succDurations execs)).stdDev
        medianDuration := (CalculateStats (succDurations execs)).median } := by
    show batchFinalize (execs.foldl mergeExecution (initResult "")) = _
    rw [batchFinalize, if_pos hpos]
    simp only [hdurs, hne, if_false, Bool.false_eq_true]
  refine ⟨?_, ?_, ?_, ?_, ?_, ?_, ?_, ?_⟩
  · rw [hbf]
    show (execs.foldl mergeExecution (initResult "")).totalDuration.tdiv
        (((execs.foldl mergeExecution (initResult "")).successfulExecutions : Nat) : Int)
      = (succDurations execs).sum.tdiv ((succDurations execs).length : Int)
    rw [htot, hsucc]
  · rw [hbf]
  · rw [hbf]
  · rw [hbf]
  · rw [hbf]
  · show (runFinalize (execs.foldl runStep (initResult "", []))).medianDuration = 0
    rw [hrun.2.2.2.2.2.1, hsplit]
    show (execs.foldl mergeExecution (initResult "")).medianDuration = 0
    rw [huntouched.2.1]
    rfl
  · show (runFinalize (execs.foldl runStep (initResult "", []))).percentile99 = 0
    rw [hrun.2.2.2.2.2.2.2, hsplit]
    show (execs.foldl mergeExecution (initResult "")).percentile99 = 0
    rw [huntouched.2.2.2.2]
    rfl
  · show (runFinalize (execs.foldl runStep (initResult "", []))).stdDevDuration = 0
    rw [hrun.2.2.2.2.2.2.1, hsplit]
    show (execs.foldl mergeExecution (initResult "")).stdDevDuration = 0
    rw [huntouched.2.2.1]
    rfl

/-- C3 witness: two successful executions of 4ns and 6ns through
`ExecuteBatch` give average 5ns = (4+6)/2. -/
theorem c3_batch_finalization_stats_witness :
    0 < (succDurations [succExec 4, succExec 6]).length ∧
    (executeBatchQuery [succExec 4, succExec 6]).avgDuration =
      (succDurations [succExec 4, succExec 6]).sum.tdiv
        ((succDurations [succExec 4, succExec 6]).length : Int) :=
  ⟨by decide, (c3_batch_finalization_stats [succExec 4, succExec 6] (by decide)).1⟩

/-- C10: the percentiles of the Stats Engine follow the nearest-rank method: for
a nonempty duration sequence, `CalculatePercentile` returns the element of
the ascending sort at index `min(floor(len * p / 100), len - 1)` for every
nonnegative percentile p, `CalculateStats` places p95 and p99 at the
corresponding nearest-rank indices, and a single-element sequence [x] has
p95 = p99 = x. -/
theorem c10_percentiles_nearest_rank (D : List Int) (hD : D ≠ []) :
    (∀ p : ℚ, 0 ≤ p →
      CalculatePercentile D p =
        (sortDurations D).getD
          (min (Int.floor ((D.length : ℚ) * p / 100)).toNat (D.length - 1)) 0) ∧
    (CalculateStats D).p95 =
      (sortDurations D).getD (min (D.length * 95 / 100) (D.length - 1)) 0 ∧
    (CalculateStats D).p99 =
      (sortDurations D).getD (min (D.length * 99 / 100) (D.length - 1)) 0 ∧
    (∀ x : Int, (CalculateStats [x]).p95 = x ∧ (CalculateStats [x]).p99 = x) := by
  have hne : ¬ D.isEmpty = true := by
    rw [List.isEmpty_iff]
    exact hD
  have hn : 0 < D.length := List.length_pos.mpr hD
  refine ⟨?_, ?_, ?_, ?_⟩
  · intro p hp
    simp only [CalculatePercentile, hne, if_false, Bool.false_eq_true]
    congr 1
    split <;> omega
  · simp only [CalculateStats, hne, if_false, Bool.false_eq_true]
  · simp only [CalculateStats, hne, if_false, Bool.false_eq_true]
  · intro x
    constructor <;> simp [CalculateStats, sortDurations, insertSorted]

/-- C10 witness: the theorem applied to the single-element sequence [5]. -/
theorem c10_percentiles_nearest_rank_witness :
    ([(5 : Int)] ≠ []) ∧
    (CalculateStats [(5 : Int)]).p95 = 5 ∧ (CalculateStats [(5 : Int)]).p99 = 5 :=
  ⟨by decide,
   ((c10_percentiles_nearest_rank [5] (by decide)).2.2.2 5).1,
   ((c10_percentiles_nearest_rank [5] (by decide)).2.2.2 5).2⟩

/-- A query with no successful execution leaves `AvgDuration` at its zero
value through the `Analyzer.Run` pipeline. -/
theorem runQuery_zero_succ_avg (execs : List QueryExecution)
    (h : (runQuery execs).successfulExecutions = 0) :
    (runQuery execs).avgDuration = 0 := by
  have hrun := runFinalize_preserved (execs.foldl runStep (initResult "", []))
  have h0 : (execs.foldl runStep (initResult "", [])).1.successfulExecutions = 0 := by
    rw [← hrun.1]
    exact h
  show (runFinalize (execs.foldl runStep (initResult "", []))).avgDuration = 0
  rw [runFinalize_avg_zero _ h0, foldl_runStep_spec]
  show (execs.foldl mergeExecution (initResult "")).avgDuration = 0
  rw [(foldl_merge_untouched execs (initResult "")).1]
  rfl

/-- `sumAvgDurations` as a mapped sum. -/
theorem sumAvgDurations_eq_map_sum (results : List QueryResult) :
    sumAvgDurations results = (results.map (fun r => r.avgDuration)).sum := by
  suffices hgen : ∀ (a : Int) (l : List QueryResult),
      l.foldl (fun acc r => acc + r.avgDuration) a = a + (l.map (fun r => r.avgDuration)).sum by
    simpa [sumAvgDurations] using hgen 0 results
  intro a l
  induction l generalizing a with
  | nil => simp
  | cons r rs ih =>
    simp [List.foldl_cons, ih]
    ring

/-- Results whose average is zero can be dropped from the numerator sum:
filtering to the queries with at least one success does not change
`sumAvgDurations` when every zero-success result carries a zero average. -/
theorem sumAvgDurations_filter_succ (results : List QueryResult)
    (hz : ∀ r ∈ results, r.successfulExecutions = 0 → r.avgDuration = 0) :
    sumAvgDurations (results.filter (fun r => 0 < r.successfulExecutions))
      = sumAvgDurations results := by
  rw [sumAvgDurations_eq_map_sum, sumAvgDurations_eq_map_sum]
  induction results with
  | nil => rfl
  | cons r rs ih =>
    have hz1 := hz r (by simp)
    have hrest := ih (fun x hx => hz x (by simp [hx]))
    by_cases hr : 0 < r.successfulExecutions
    · rw [List.filter_cons_of_pos (by simpa using hr)]
      simp [hrest]
    · rw [List.filter_cons_of_neg (by simpa using hr)]
      have : r.avgDuration = 0 := hz1 (by omega)
      simp [hrest, this]

/-- C1 counterexample: one query with a single 100000ns success and one
query with a single failure.  The overall average of the code is
(100000 + 0) / 2 queries = 50000ns = 0.05ms, while the reduction the claim describes —
excluding the undefined-average query from numerator and denominator —
gives 100000ns = 0.1ms.  The zero-success query is counted in the
denominator, so the claim is false. -/
theorem c1_summary_average_counterexample :
    (calculateSummary [runQuery [succExec 100000], runQuery [failExec "x"]]).avgDurationMs
      = 1 / 20 ∧
    specOverallAvgMs [runQuery [succExec 100000], runQuery [failExec "x"]] = 1 / 10 ∧
    (calculateSummary [runQuery [succExec 100000], runQuery [failExec "x"]]).avgDurationMs
      ≠ specOverallAvgMs [runQuery [succExec 100000], runQuery [failExec "x"]] := by
  have ha :
      (calculateSummary [runQuery [succExec 100000], runQuery [failExec "x"]]).avgDurationMs
        = 1 / 20 := by
    simp only [calculateSummary, List.length_cons, List.length_nil]
    norm_num
    rw [show ((sumAvgDurations [runQuery [succExec 100000], runQuery [failExec "x"]]).tdiv
        (2 : Int)).tdiv 1000 = 50 from by decide]
    norm_num
  have hb : specOverallAvgMs [runQuery [succExec 100000], runQuery [failExec "x"]]
      = 1 / 10 := by
    have h1 : (runQuery [succExec 100000]).successfulExecutions = 1 := by decide
    have h2 : (runQuery [failExec "x"]).successfulExecutions = 0 := by decide
    simp only [specOverallAvgMs, List.filter, h1, h2]
    norm_num
    rw [show (sumAvgDurations [runQuery [succExec 100000]]).tdiv 1000 = 100 from by decide]
    norm_num
  refine ⟨ha, hb, ?_⟩
  rw [ha, hb]
  norm_num

/-- C1 (amended): in the Run Summarizer, every QueryResult counts in the
denominator (`TotalQueries`), while a query with no successful execution
enters the numerator with its zero `AvgDuration`; equivalently the overall
average equals the sum of defined per-query averages divided by the total
number of queries, not by the number of queries with a defined average. -/
theorem c1_summary_denominator_counts_all (ls : List (List QueryExecution))
    (h : ls ≠ []) :
    (calculateSummary (ls.map runQuery)).avgDurationMs =
      ((((sumAvgDurations ((ls.map runQuery).filter
            (fun r => 0 < r.successfulExecutions))).tdiv
          ((ls.length : Nat) : Int)).tdiv 1000 : Int) : ℚ) / 1000 := by
  have hlen : 0 < (ls.map runQuery).length := by
    simpa using List.length_pos.mpr h
  have hfilter : sumAvgDurations ((ls.map runQuery).filter
        (fun r => 0 < r.successfulExecutions))
      = sumAvgDurations (ls.map runQuery) := by
    refine sumAvgDurations_filter_succ _ ?_
    intro r hr h0
    obtain ⟨l, _, rfl⟩ := List.mem_map.mp hr
    exact runQuery_zero_succ_avg l h0
  rw [hfilter]
  simp only [calculateSummary, List.length_map]
  rw [if_pos (by simpa using hlen)]

/-- C1 witness: the amended statement evaluated on the two-query run of the
counterexample: both sides are 0.05ms. -/
theorem c1_summary_denominator_counts_all_witness :
    ([[succExec 100000], [failExec "x"]] : List (List QueryExecution)) ≠ [] ∧
    (calculateSummary (([[succExec 100000], [failExec "x"]] :
          List (List QueryExecution)).map runQuery)).avgDurationMs =
      ((((sumAvgDurations ((([[succExec 100000], [failExec "x"]] :
              List (List QueryExecution)).map runQuery).filter
            (fun r => 0 < r.successfulExecutions))).tdiv
          ((([[succExec 100000], [failExec "x"]] :
              List (List QueryExecution)).length : Nat) : Int)).tdiv 1000 : Int) : ℚ) / 1000 :=
  ⟨by decide, c1_summary_denominator_counts_all _ (by decide)⟩

/-- C8 counterexample: query B has a success only in the before run.  The
aggregate of the code uses B on the before side but not on the after side,
yielding ((55 - 100) / 55) × 100 = -900/11 percent, whereas the both-runs
reduction of the claim uses only query A on each side and yields 0 percent. -/
theorem c8_aggregate_counterexample :
    comparisonAggregate cmpBeforeRun cmpAfterRun = -900 / 11 ∧
    specComparisonAggregate cmpBeforeRun cmpAfterRun = 0 ∧
    comparisonAggregate cmpBeforeRun cmpAfterRun ≠
      specComparisonAggregate cmpBeforeRun cmpAfterRun := by
  have hb : cmpBeforeRun.filter (fun q => 0 < q.successfulExecutions) = cmpBeforeRun := by
    decide
  have ha : cmpAfterRun.filter (fun q => 0 < q.successfulExecutions)
      = [{ initResult "A" with successfulExecutions := 1, avgDuration := 100000 }] := by
    decide
  have hbt : cmpBeforeRun.foldl (fun acc q => acc + q.avgDuration) 0 = 110000 := by decide
  have hat : ([{ initResult "A" with successfulExecutions := 1, avgDuration := 100000 }] :
      List QueryResult).foldl (fun acc q => acc + q.avgDuration) 0 = 100000 := by decide
  have hlb : cmpBeforeRun.length = 2 := by decide
  have hcode : comparisonAggregate cmpBeforeRun cmpAfterRun = -900 / 11 := by
    simp only [comparisonAggregate, hb, ha, hbt, hat, hlb, List.length_cons, List.length_nil]
    rw [show (110000 : Int).tdiv 1000 = 110 from by decide,
      show (100000 : Int).tdiv 1000 = 100 from by decide]
    norm_num
  have hspecsel_b : cmpBeforeRun.filter (fun q => 0 < q.successfulExecutions ∧
      cmpAfterRun.any (fun p => p.name = q.name ∧ 0 < p.successfulExecutions))
      = [{ initResult "A" with successfulExecutions := 1, avgDuration := 100000 }] := by
    decide
  have hspecsel_a : cmpAfterRun.filter (fun q => 0 < q.successfulExecutions ∧
      cmpBeforeRun.any (fun p => p.name = q.name ∧ 0 < p.successfulExecutions))
      = [{ initResult "A" with successfulExecutions := 1, avgDuration := 100000 }] := by
    decide
  have hspec : specComparisonAggregate cmpBeforeRun cmpAfterRun = 0 := by
    simp only [specComparisonAggregate, hspecsel_b, hspecsel_a, hat,
      List.length_cons, List.length_nil]
    rw [show (100000 : Int).tdiv 1000 = 100 from by decide]
    norm_num
  refine ⟨hcode, hspec, ?_⟩
  rw [hcode, hspec]
  norm_num

/-- C8 (amended): the Comparator aggregate filters each run independently:
the average of each side is taken over exactly the queries with at least one
successful execution in that same run, so zero-success queries of a run are
excluded from that side only, and a query successful in just one run still
contributes to the side of that run.  Formally, dropping the zero-success
results from either input leaves the aggregate unchanged. -/
theorem c8_aggregate_filters_each_run_independently (before after : List QueryResult) :
    comparisonAggregate before after =
      comparisonAggregate (before.filter (fun q => 0 < q.successfulExecutions))
        (after.filter (fun q => 0 < q.successfulExecutions)) := by
  simp only [comparisonAggregate, List.filter_filter]
  simp [Bool.and_self]
